import Mathlib

/-!
# Verification of the interview phase state machine and session store

A shallow embedding of the core of the `livekit-test-ai-interview`
repository: the `InterviewAgent` state machine of `agent.py` and the
`DatabaseDriver` operations of `db_driver.py`.

Modelling conventions:
* Python `int` is `Int`; Python `float` arithmetic on scores and sizes is
  modelled exactly over `ℚ` (the values involved are small enough that the
  IEEE-754 doubles used by the source are exact except at `round` midpoints,
  which none of the statements below touch).
* `datetime.datetime.now().isoformat()` and `uuid.uuid4()` are external
  inputs, passed as explicit `String` parameters (`now`, `new_id`, ...).
* SQLite tables are lists of row structures; an SQL `UPDATE ... WHERE p`
  is `List.map` of the row transformer guarded by `p`, and `cursor.rowcount`
  is `List.countP p`.  `NULL`-able columns are `Option` fields.
* The SQLite `<` on `TEXT` columns (BINARY collation, byte-wise) is modelled
  by `textLt` on the character list; ISO-8601 timestamps are ASCII so the
  two orders agree.
* `json.dumps` of the question/response/note logs is modelled as the
  injective packaging of the three logs into an `InterviewLog` value.
* Python dict entries such as `{"response": ..., "quality_score": ...,
  "timestamp": ..., "phase": phase.value}` are record structures; the
  `phase.value` string tag is kept as the (bijectively equivalent)
  `InterviewPhase` constructor.
-/

/-- The `InterviewPhase` enum of `agent.py` (same in `api.py`), in its
declaration order INTRODUCTION, TECHNICAL, BEHAVIORAL, CLOSING, COMPLETED. -/
inductive InterviewPhase where
  | INTRODUCTION
  | TECHNICAL
  | BEHAVIORAL
  | CLOSING
  | COMPLETED
deriving DecidableEq, Repr

/-- `list(InterviewPhase)` : the enum members in declaration order. -/
def phaseList : List InterviewPhase :=
  [.INTRODUCTION, .TECHNICAL, .BEHAVIORAL, .CLOSING, .COMPLETED]

/-- Index of a phase in the ordering
INTRODUCTION < TECHNICAL < BEHAVIORAL < CLOSING < COMPLETED (spec side). -/
def phaseIndex : InterviewPhase → Nat
  | .INTRODUCTION => 0
  | .TECHNICAL => 1
  | .BEHAVIORAL => 2
  | .CLOSING => 3
  | .COMPLETED => 4

/-- An entry of `interview_data.questions_asked`
(`{"question", "timestamp", "phase"}`). -/
structure QuestionEntry where
  question : String
  timestamp : String
  phase : InterviewPhase
deriving DecidableEq, Repr

/-- An entry of `interview_data.responses`
(`{"response", "quality_score", "timestamp", "phase"}`). -/
structure ResponseEntry where
  response : String
  quality_score : Int
  timestamp : String
  phase : InterviewPhase
deriving DecidableEq, Repr

/-- An entry of `interview_data.notes` (`{"note", "timestamp", "phase"}`). -/
structure NoteEntry where
  note : String
  timestamp : String
  phase : InterviewPhase
deriving DecidableEq, Repr

/-- The dict `json.dumps`-ed by `complete_interview`: the three logs. -/
structure InterviewLog where
  questions_asked : List QuestionEntry
  responses : List ResponseEntry
  notes : List NoteEntry
deriving DecidableEq, Repr

/-- The `InterviewData` in-memory session state of `agent.py`. -/
structure InterviewData where
  candidate_name : String
  position : String
  start_time : String
  current_phase : InterviewPhase
  questions_asked : List QuestionEntry
  responses : List ResponseEntry
  notes : List NoteEntry
  technical_score : Int
  behavioral_score : Int
  overall_impression : String
  interview_id : Option String
deriving DecidableEq, Repr

/-- `InterviewData.__init__` (the `start_time` is `datetime.now()`,
passed as a parameter). -/
def initInterviewData (start_time : String) : InterviewData :=
  { candidate_name := ""
    position := ""
    start_time := start_time
    current_phase := .INTRODUCTION
    questions_asked := []
    responses := []
    notes := []
    technical_score := 0
    behavioral_score := 0
    overall_impression := ""
    interview_id := none }

/-- The mutable state of an `InterviewAgent`: its `interview_data`, the
per-phase `question_count` and the `max_questions_per_phase` ceiling. -/
structure InterviewAgent where
  interview_data : InterviewData
  question_count : Nat
  max_questions_per_phase : Nat
deriving DecidableEq, Repr

/-- `InterviewAgent.__init__`. -/
def initAgent (start_time : String) : InterviewAgent :=
  { interview_data := initInterviewData start_time
    question_count := 0
    max_questions_per_phase := 5 }

/-- A row of the `interview_sessions` table. -/
structure SessionRow where
  interview_id : String
  candidate_name : String
  position : String
  start_time : String
  end_time : Option String
  technical_score : Int
  behavioral_score : Int
  overall_impression : Option String
  interview_data : Option InterviewLog
  status : String
  recording_id : Option String
  recording_url : Option String
  transcript_url : Option String
  recording_status : Option String
deriving DecidableEq, Repr

/-- A row of the `recordings` table. -/
structure RecordingRow where
  recording_id : String
  interview_id : String
  egress_id : String
  room_name : String
  status : String
  start_time : String
  end_time : Option String
  file_size : Option Int
  duration_seconds : Option Int
  s3_url : Option String
  created_at : String
  updated_at : String
deriving DecidableEq, Repr

/-- Python truthiness of an optional string (`None` and `""` are falsy). -/
def strTruthy : Option String → Bool
  | none => false
  | some s => s ≠ ""

/-- Python `str.lower` on one character, restricted to ASCII
(the positions handled by the source are ASCII). -/
def pyLowerChar (c : Char) : Char :=
  if 'A' ≤ c ∧ c ≤ 'Z' then Char.ofNat (c.toNat + 32) else c

/-- Python `str.lower` (ASCII fragment). -/
def pyLower (s : String) : String :=
  ⟨s.data.map pyLowerChar⟩

/-- SQLite BINARY-collation `<` on `TEXT`, byte-wise lexicographic;
on the ASCII ISO-8601 timestamps of this schema it is character-wise. -/
def textLt : List Char → List Char → Bool
  | [], [] => false
  | [], _ :: _ => true
  | _ :: _, [] => false
  | a :: as, b :: bs =>
      if a.toNat < b.toNat then true
      else if b.toNat < a.toNat then false
      else textLt as bs

/-- `DatabaseDriver.create_interview_session` (db_driver.py:127).
`uuid.uuid4()` and `datetime.now().isoformat()` are the parameters
`interview_id` and `now`; columns not named in the INSERT take their
schema defaults. Returns the new table and the id. -/
def create_interview_session (db : List SessionRow) (candidate_name position : String)
    (interview_id now : String) : List SessionRow × String :=
  (db ++ [{ interview_id := interview_id
            candidate_name := candidate_name
            position := position
            start_time := now
            end_time := none
            technical_score := 0
            behavioral_score := 0
            overall_impression := none
            interview_data := none
            status := "in_progress"
            recording_id := none
            recording_url := none
            transcript_url := none
            recording_status := some "pending" }], interview_id)

/-- `DatabaseDriver.complete_interview_session` (db_driver.py:236).
Updates every row matching `interview_id` and returns
`cursor.rowcount > 0`. -/
def complete_interview_session (db : List SessionRow) (interview_id : String)
    (technical_score behavioral_score : Int) (overall_impression : String)
    (interview_data : InterviewLog) (now : String) : List SessionRow × Bool :=
  (db.map (fun r =>
      if r.interview_id == interview_id then
        { r with end_time := some now
                 technical_score := technical_score
                 behavioral_score := behavioral_score
                 overall_impression := some overall_impression
                 interview_data := some interview_data
                 status := "completed" }
      else r),
   db.countP (fun r => r.interview_id == interview_id) != 0)

/-- `DatabaseDriver.update_recording_status` (db_driver.py:172).
Overwrites status, end_time, s3_url, file_size, duration_seconds and
updated_at of the matched recording row with the given values (the
optional ones default to `None` in the source when omitted), then
updates the denormalized recording fields on the owning session rows.
The returned boolean is `cursor.rowcount > 0` after the *second*
UPDATE, i.e. whether an `interview_sessions` row was matched. -/
def update_recording_status (recordings : List RecordingRow) (sessions : List SessionRow)
    (recording_id : String) (status : String) (s3_url : Option String)
    (file_size : Option Int) (duration_seconds : Option Int) (now : String) :
    List RecordingRow × List SessionRow × Bool :=
  let end_time : Option String := if status == "completed" then some now else none
  (recordings.map (fun r =>
      if r.recording_id == recording_id then
        { r with status := status
                 end_time := end_time
                 s3_url := s3_url
                 file_size := file_size
                 duration_seconds := duration_seconds
                 updated_at := now }
      else r),
   sessions.map (fun s =>
      if s.recording_id == some recording_id then
        { s with recording_status := some status, recording_url := s3_url }
      else s),
   sessions.countP (fun s => s.recording_id == some recording_id) != 0)

/-- `DatabaseDriver.cleanup_old_interviews` (db_driver.py:488).
The cutoff `(datetime.now() - timedelta(days=days_old)).isoformat()` is
the parameter `cutoff_iso`. Archives the sessions strictly older than
the cutoff that are not already archived, and returns the new table
together with `cursor.rowcount`. -/
def cleanup_old_interviews (db : List SessionRow) (cutoff_iso : String) :
    List SessionRow × Nat :=
  (db.map (fun r =>
      if textLt r.start_time.data cutoff_iso.data && r.status != "archived" then
        { r with status := "archived" }
      else r),
   db.countP (fun r => textLt r.start_time.data cutoff_iso.data && r.status != "archived"))

/-- Python `round(x, 2)` on the exact rational value. -/
def roundTo2 (q : ℚ) : ℚ := (round (q * 100) : ℤ) / 100

/-- The storage contribution of one recording row in
`get_interview_analytics`: `file_size / (1024 * 1024) if file_size else 0`,
after `file_size = r_row[1] or 0`. -/
def recordingStorageMB (r : RecordingRow) : ℚ :=
  let fs := r.file_size.getD 0
  if fs ≠ 0 then (fs : ℚ) / (1024 * 1024) else 0

/-- The completed-session filter of `get_interview_analytics`
(db_driver.py:370): `status = 'completed'`, plus `position = ?`
when a truthy position argument is given. -/
def completedSessionsFor (db : List SessionRow) (position : Option String) :
    List SessionRow :=
  db.filter (fun s =>
    s.status == "completed" &&
      (if strTruthy position then s.position == position.getD "" else true))

/-- The `recording_stats` dictionary of the report. -/
structure RecordingStats where
  total_recordings : Nat
  completed_recordings : Nat
  failed_recordings : Nat
  total_storage_mb : ℚ
deriving DecidableEq, Repr

/-- The `recording_stats` component of
`DatabaseDriver.get_interview_analytics` (db_driver.py:364):
all-zero when there is no completed session (early return) or when
`include_recording_stats` is false; otherwise counts recordings by
status over the whole `recordings` table and sums every row's
`file_size` into `total_storage_mb`, rounded to two decimals. -/
def get_interview_analytics_recording_stats (sessions : List SessionRow)
    (recordings : List RecordingRow) (position : Option String)
    (include_recording_stats : Bool) : RecordingStats :=
  if (completedSessionsFor sessions position).isEmpty then
    ⟨0, 0, 0, 0⟩
  else if include_recording_stats then
    { total_recordings := recordings.length
      completed_recordings := (recordings.filter (fun r => r.status == "completed")).length
      failed_recordings := (recordings.filter (fun r => r.status == "failed")).length
      total_storage_mb := roundTo2 ((recordings.map recordingStorageMB).sum) }
  else ⟨0, 0, 0, 0⟩

/-- `InterviewAgent.record_candidate_info` (agent.py:89): stores the
name verbatim and the position lower-cased in memory, then persists a
session row through `create_interview_session` (which receives the
position verbatim) and binds the returned id. The spoken
acknowledgement string is not modelled. -/
def record_candidate_info (a : InterviewAgent) (db : List SessionRow)
    (name position : String) (new_id now : String) :
    InterviewAgent × List SessionRow :=
  let d1 := { a.interview_data with candidate_name := name, position := pyLower position }
  let res := create_interview_session db name position new_id now
  ({ a with interview_data := { d1 with interview_id := some res.2 } }, res.1)

/-- `InterviewAgent.record_question` (agent.py:107). -/
def record_question (a : InterviewAgent) (question now : String) :
    InterviewAgent × String :=
  ({ a with
      interview_data := { a.interview_data with
        questions_asked := a.interview_data.questions_asked ++
          [{ question := question, timestamp := now, phase := a.interview_data.current_phase }] }
      question_count := a.question_count + 1 },
   "Question recorded.")

/-- `InterviewAgent.record_response` (agent.py:124): appends the
response tagged with the current phase, then adds the score to the
technical (resp. behavioral) total iff the phase is TECHNICAL
(resp. BEHAVIORAL). There is no validation of `quality_score`. -/
def record_response (a : InterviewAgent) (response : String) (quality_score : Int)
    (now : String) : InterviewAgent × String :=
  let d1 := { a.interview_data with
    responses := a.interview_data.responses ++
      [{ response := response, quality_score := quality_score, timestamp := now,
         phase := a.interview_data.current_phase }] }
  let d2 :=
    if d1.current_phase = .TECHNICAL then
      { d1 with technical_score := d1.technical_score + quality_score }
    else if d1.current_phase = .BEHAVIORAL then
      { d1 with behavioral_score := d1.behavioral_score + quality_score }
    else d1
  ({ a with interview_data := d2 }, "Response recorded and scored.")

/-- `InterviewAgent.add_interviewer_note` (agent.py:147). -/
def add_interviewer_note (a : InterviewAgent) (note now : String) :
    InterviewAgent × String :=
  ({ a with
      interview_data := { a.interview_data with
        notes := a.interview_data.notes ++
          [{ note := note, timestamp := now, phase := a.interview_data.current_phase }] } },
   "Note added.")

/-- `InterviewAgent.advance_interview_phase` (agent.py:162). -/
def advance_interview_phase (a : InterviewAgent) : InterviewAgent × String :=
  match a.interview_data.current_phase with
  | .INTRODUCTION =>
      ({ a with interview_data := { a.interview_data with current_phase := .TECHNICAL }
                question_count := 0 },
       "Moving to technical questions phase.")
  | .TECHNICAL =>
      ({ a with interview_data := { a.interview_data with current_phase := .BEHAVIORAL }
                question_count := 0 },
       "Moving to behavioral questions phase.")
  | .BEHAVIORAL =>
      ({ a with interview_data := { a.interview_data with current_phase := .CLOSING } },
       "Moving to closing phase.")
  | .CLOSING =>
      ({ a with interview_data := { a.interview_data with current_phase := .COMPLETED } },
       "Interview completed.")
  | .COMPLETED => (a, "Interview already completed.")

/-- Iterating the state part of `advance_interview_phase`. -/
def advanceIter (n : Nat) (a : InterviewAgent) : InterviewAgent :=
  (fun s => (advance_interview_phase s).1)^[n] a

/-- `InterviewAgent.complete_interview` (agent.py:198): sets the
impression and forces the phase to COMPLETED, then persists the final
snapshot through `complete_interview_session` — but only when a truthy
`interview_id` is bound (`if hasattr(...) and self.interview_data.interview_id`). -/
def complete_interview (a : InterviewAgent) (db : List SessionRow)
    (overall_impression : String) (now : String) :
    InterviewAgent × List SessionRow × String :=
  let d := { a.interview_data with
    overall_impression := overall_impression, current_phase := .COMPLETED }
  let db2 :=
    if strTruthy d.interview_id then
      (complete_interview_session db (d.interview_id.getD "") d.technical_score
        d.behavioral_score overall_impression
        ⟨d.questions_asked, d.responses, d.notes⟩ now).1
    else db
  ({ a with interview_data := d }, db2,
   "Interview completed and data saved. Thank you for your time!")

/-- `InterviewMetrics.calculate_completion_rate` (api.py:74):
`total_phases = len(InterviewPhase) - 1`,
`current_phase_index = list(InterviewPhase).index(phase)`. -/
def calculate_completion_rate (d : InterviewData) : ℚ :=
  let total_phases : ℚ := (phaseList.length : ℚ) - 1
  let current_phase_index : ℚ := ((phaseList.indexOf d.current_phase : Nat) : ℚ)
  current_phase_index / total_phases * 100

/-- One tool-style command of the conversation driver, with the
external inputs (timestamps, fresh uuid) it consumes. -/
inductive AgentOp where
  | recordCandidateInfo (name position new_id now : String)
  | recordQuestion (question now : String)
  | recordResponse (response : String) (quality_score : Int) (now : String)
  | addNote (note now : String)
  | advancePhase
  | completeInterview (overall_impression now : String)
deriving DecidableEq, Repr

/-- One step of the agent/store pair under a command. -/
def stepOp (s : InterviewAgent × List SessionRow) : AgentOp → InterviewAgent × List SessionRow
  | .recordCandidateInfo name position new_id now =>
      record_candidate_info s.1 s.2 name position new_id now
  | .recordQuestion q now => ((record_question s.1 q now).1, s.2)
  | .recordResponse resp q now => ((record_response s.1 resp q now).1, s.2)
  | .addNote note now => ((add_interviewer_note s.1 note now).1, s.2)
  | .advancePhase => ((advance_interview_phase s.1).1, s.2)
  | .completeInterview imp now =>
      let r := complete_interview s.1 s.2 imp now
      (r.1, r.2.1)

/-- Running a command sequence. -/
def runOps (s : InterviewAgent × List SessionRow) (ops : List AgentOp) :
    InterviewAgent × List SessionRow :=
  ops.foldl stepOp s

/-- A command carries a score in the closed range [1,5]
(vacuously true for commands without a score). -/
def scoreInRange : AgentOp → Prop
  | .recordResponse _ q _ => 1 ≤ q ∧ q ≤ 5
  | _ => True

instance : DecidablePred scoreInRange := fun op => by
  unfold scoreInRange
  cases op <;> infer_instance

/-- Sum of the quality scores of the responses tagged TECHNICAL. -/
def techSum (l : List ResponseEntry) : Int :=
  ((l.filter (fun r => r.phase == .TECHNICAL)).map (fun r => r.quality_score)).sum

/-- Sum of the quality scores of the responses tagged BEHAVIORAL. -/
def behSum (l : List ResponseEntry) : Int :=
  ((l.filter (fun r => r.phase == .BEHAVIORAL)).map (fun r => r.quality_score)).sum

/-- A concrete agent sitting in the TECHNICAL phase with empty logs and
zero totals, used as a test vehicle. -/
def techAgent : InterviewAgent :=
  { interview_data := { initInterviewData "t0" with current_phase := .TECHNICAL }
    question_count := 0
    max_questions_per_phase := 5 }

/-- A concrete agent in the terminal COMPLETED phase. -/
def completedAgent : InterviewAgent :=
  { interview_data := { initInterviewData "t0" with current_phase := .COMPLETED }
    question_count := 0
    max_questions_per_phase := 5 }

/-- A concrete command sequence: two TECHNICAL responses then one
BEHAVIORAL response, all in range. -/
def sampleOps : List AgentOp :=
  [.advancePhase, .recordResponse "resp-a" 4 "t1", .recordResponse "resp-b" 5 "t2",
   .advancePhase, .recordResponse "resp-c" 3 "t3"]

/-- A concrete freshly created session row. -/
def sampleRow : SessionRow :=
  { interview_id := "id-1"
    candidate_name := "Jane"
    position := "Engineer"
    start_time := "2026-01-01T00:00:00"
    end_time := none
    technical_score := 0
    behavioral_score := 0
    overall_impression := none
    interview_data := none
    status := "in_progress"
    recording_id := none
    recording_url := none
    transcript_url := none
    recording_status := some "pending" }

/-- A concrete agent with a bound interview id and a nonzero score. -/
def boundAgent : InterviewAgent :=
  { techAgent with interview_data :=
      { techAgent.interview_data with interview_id := some "id-1", technical_score := 7 } }

/-- A concrete completed session row. -/
def completedRow : SessionRow :=
  { sampleRow with interview_id := "id-2", status := "completed" }

/-- A concrete session row old enough to be archived. -/
def oldRow : SessionRow :=
  { sampleRow with interview_id := "id-3", start_time := "2020-01-01T00:00:00" }

/-- A concrete recording that is still in progress but already has a
file size reported. -/
def inProgressRecording : RecordingRow :=
  { recording_id := "rec-1"
    interview_id := "id-2"
    egress_id := "eg-1"
    room_name := "room"
    status := "recording"
    start_time := "2026-01-01T00:00:00"
    end_time := none
    file_size := some 1048576
    duration_seconds := none
    s3_url := none
    created_at := "2026-01-01T00:00:00"
    updated_at := "2026-01-01T00:00:00" }

/-- A concrete recording with every optional column populated. -/
def completedRecording : RecordingRow :=
  { inProgressRecording with
      recording_id := "rec-2"
      status := "completed"
      end_time := some "t5"
      file_size := some 99
      duration_seconds := some 10
      s3_url := some "s3-url" }

/-! ## Helper lemmas -/

/-- One advance step never lowers the phase index. -/
theorem advance_step_phaseIndex_le (a : InterviewAgent) :
    phaseIndex a.interview_data.current_phase ≤
      phaseIndex (advance_interview_phase a).1.interview_data.current_phase := by
  cases h : a.interview_data.current_phase <;>
    simp [advance_interview_phase, h, phaseIndex]

/-- Iterated advance never lowers the phase index. -/
theorem advanceIter_phaseIndex_le (k : Nat) (a : InterviewAgent) :
    phaseIndex a.interview_data.current_phase ≤
      phaseIndex (advanceIter k a).interview_data.current_phase := by
  induction k generalizing a with
  | zero => simp [advanceIter]
  | succ n ih =>
      have h2 := ih ((advance_interview_phase a).1)
      rw [advanceIter, Function.iterate_succ_apply]
      exact le_trans (advance_step_phaseIndex_le a) h2

/-- The effect of `record_response` on the log, the two totals and the phase. -/
theorem record_response_effect (a : InterviewAgent) (resp : String) (q : Int)
    (now : String) :
    (record_response a resp q now).1.interview_data.responses =
      a.interview_data.responses ++ [⟨resp, q, now, a.interview_data.current_phase⟩]
    ∧ (record_response a resp q now).1.interview_data.technical_score =
        a.interview_data.technical_score +
          (if a.interview_data.current_phase = .TECHNICAL then q else 0)
    ∧ (record_response a resp q now).1.interview_data.behavioral_score =
        a.interview_data.behavioral_score +
          (if a.interview_data.current_phase = .BEHAVIORAL then q else 0)
    ∧ (record_response a resp q now).1.interview_data.current_phase =
        a.interview_data.current_phase := by
  cases h : a.interview_data.current_phase <;> simp [record_response, h]

/-- `techSum` over an appended response. -/
theorem techSum_append (l : List ResponseEntry) (e : ResponseEntry) :
    techSum (l ++ [e]) =
      techSum l + (if e.phase = .TECHNICAL then e.quality_score else 0) := by
  by_cases h : e.phase = InterviewPhase.TECHNICAL <;>
    simp [techSum, List.filter_append, h]

/-- `behSum` over an appended response. -/
theorem behSum_append (l : List ResponseEntry) (e : ResponseEntry) :
    behSum (l ++ [e]) =
      behSum l + (if e.phase = .BEHAVIORAL then e.quality_score else 0) := by
  by_cases h : e.phase = InterviewPhase.BEHAVIORAL <;>
    simp [behSum, List.filter_append, h]

/-- Every command preserves the two score/log-sum invariants. -/
theorem stepOp_scores_inv (s : InterviewAgent × List SessionRow) (op : AgentOp)
    (h1 : s.1.interview_data.technical_score = techSum s.1.interview_data.responses)
    (h2 : s.1.interview_data.behavioral_score = behSum s.1.interview_data.responses) :
    (stepOp s op).1.interview_data.technical_score =
      techSum (stepOp s op).1.interview_data.responses
    ∧ (stepOp s op).1.interview_data.behavioral_score =
      behSum (stepOp s op).1.interview_data.responses := by
  cases op with
  | recordCandidateInfo name position new_id now =>
      exact ⟨h1, h2⟩
  | recordQuestion q now =>
      exact ⟨h1, h2⟩
  | recordResponse resp q now =>
      obtain ⟨hresp, htech, hbeh, _⟩ := record_response_effect s.1 resp q now
      simp only [stepOp]
      constructor
      · rw [htech, hresp, techSum_append, h1]
      · rw [hbeh, hresp, behSum_append, h2]
  | addNote note now =>
      exact ⟨h1, h2⟩
  | advancePhase =>
      cases h : s.1.interview_data.current_phase <;>
        simp_all [stepOp, advance_interview_phase, h]
  | completeInterview imp now =>
      exact ⟨h1, h2⟩

/-- The score/log-sum invariants hold along any run. -/
theorem runOps_scores_inv (ops : List AgentOp) (s : InterviewAgent × List SessionRow)
    (h1 : s.1.interview_data.technical_score = techSum s.1.interview_data.responses)
    (h2 : s.1.interview_data.behavioral_score = behSum s.1.interview_data.responses) :
    (runOps s ops).1.interview_data.technical_score =
      techSum (runOps s ops).1.interview_data.responses
    ∧ (runOps s ops).1.interview_data.behavioral_score =
      behSum (runOps s ops).1.interview_data.responses := by
  induction ops generalizing s with
  | nil => exact ⟨h1, h2⟩
  | cons op rest ih =>
      have hstep := stepOp_scores_inv s op h1 h2
      exact ih (stepOp s op) hstep.1 hstep.2

/-! ## Claim theorems -/

/-- C1: along any sequence of `advance()` calls the phase index over the
ordering INTRODUCTION < TECHNICAL < BEHAVIORAL < CLOSING < COMPLETED is
non-decreasing, a step from any non-terminal phase moves exactly one phase
forward (no skip, no backward transition), and `advance()` in COMPLETED
leaves the agent unchanged and returns the already-completed signal. -/
theorem advance_interview_phase_monotone (a : InterviewAgent) :
    phaseIndex a.interview_data.current_phase ≤
      phaseIndex (advance_interview_phase a).1.interview_data.current_phase
    ∧ (a.interview_data.current_phase ≠ .COMPLETED →
        phaseIndex (advance_interview_phase a).1.interview_data.current_phase =
          phaseIndex a.interview_data.current_phase + 1)
    ∧ (a.interview_data.current_phase = .COMPLETED →
        (advance_interview_phase a).1 = a ∧
          (advance_interview_phase a).2 = "Interview already completed.")
    ∧ ∀ n m : Nat, n ≤ m →
        phaseIndex (advanceIter n a).interview_data.current_phase ≤
          phaseIndex (advanceIter m a).interview_data.current_phase := by
  refine ⟨advance_step_phaseIndex_le a, ?_, ?_, ?_⟩
  · intro hne
    cases h : a.interview_data.current_phase <;>
      simp [advance_interview_phase, h, phaseIndex] <;> exact absurd h hne
  · intro h
    simp [advance_interview_phase, h]
  · intro n m hnm
    have hm : m = (m - n) + n := by omega
    rw [hm]
    show _ ≤ phaseIndex ((fun s => (advance_interview_phase s).1)^[(m - n) + n] a).interview_data.current_phase
    rw [Function.iterate_add_apply]
    exact advanceIter_phaseIndex_le (m - n) (advanceIter n a)

/-- Witness for C1 at the concrete already-completed agent. -/
theorem advance_interview_phase_monotone_witness :
    (advance_interview_phase completedAgent).1 = completedAgent ∧
      (advance_interview_phase completedAgent).2 = "Interview already completed." :=
  (advance_interview_phase_monotone completedAgent).2.2.1 rfl

/-- C2: after any command sequence whose recorded scores all lie in [1,5],
the technical total equals the sum of exactly the scores of responses
recorded while the phase was TECHNICAL, the behavioral total equals the sum
of exactly the scores of responses recorded while the phase was BEHAVIORAL,
and a response recorded in any other phase changes neither total. -/
theorem runOps_score_totals (ops : List AgentOp) (db0 : List SessionRow) (t0 : String)
    (hscore : ∀ op ∈ ops, scoreInRange op) :
    (runOps (initAgent t0, db0) ops).1.interview_data.technical_score =
      techSum (runOps (initAgent t0, db0) ops).1.interview_data.responses
    ∧ (runOps (initAgent t0, db0) ops).1.interview_data.behavioral_score =
      behSum (runOps (initAgent t0, db0) ops).1.interview_data.responses
    ∧ ∀ (a : InterviewAgent) (resp : String) (q : Int) (now : String),
        a.interview_data.current_phase ≠ .TECHNICAL →
        a.interview_data.current_phase ≠ .BEHAVIORAL →
        (record_response a resp q now).1.interview_data.technical_score =
            a.interview_data.technical_score
          ∧ (record_response a resp q now).1.interview_data.behavioral_score =
            a.interview_data.behavioral_score := by
  have hinv := runOps_scores_inv ops (initAgent t0, db0) rfl rfl
  refine ⟨hinv.1, hinv.2, ?_⟩
  intro a resp q now htech hbeh
  obtain ⟨_, ht, hb, _⟩ := record_response_effect a resp q now
  rw [ht, hb]
  simp [htech, hbeh]

/-- Witness for C2 on a concrete in-range command sequence. -/
theorem runOps_score_totals_witness :
    (∀ op ∈ sampleOps, scoreInRange op) ∧
      (runOps (initAgent "t0", []) sampleOps).1.interview_data.technical_score =
        techSum (runOps (initAgent "t0", []) sampleOps).1.interview_data.responses :=
  ⟨by decide, (runOps_score_totals sampleOps [] "t0" (by decide)).1⟩

/-- C3 counterexample: `record_response` with the out-of-range score 42 is
not rejected — it mutates the state, growing the response log and adding 42
to the technical total, and returns the normal acknowledgement. -/
theorem record_response_out_of_range_not_rejected :
    (record_response techAgent "resp" 42 "t1").1.interview_data.technical_score = 42
    ∧ techAgent.interview_data.technical_score = 0
    ∧ (record_response techAgent "resp" 42 "t1").1.interview_data.responses.length = 1
    ∧ techAgent.interview_data.responses.length = 0
    ∧ (record_response techAgent "resp" 42 "t1").2 = "Response recorded and scored." := by
  decide

/-- C3 amended: `record_response` performs no validation: for any score
outside the closed range [1,5] the call still appends the response to the
log, still adds the score to the technical (resp. behavioral) total when the
phase is TECHNICAL (resp. BEHAVIORAL), and returns the normal
acknowledgement instead of an error. -/
theorem record_response_no_validation (a : InterviewAgent) (resp : String)
    (q : Int) (now : String) (hout : q < 1 ∨ 5 < q) :
    (record_response a resp q now).1.interview_data.responses =
      a.interview_data.responses ++ [⟨resp, q, now, a.interview_data.current_phase⟩]
    ∧ (record_response a resp q now).1.interview_data.technical_score =
        a.interview_data.technical_score +
          (if a.interview_data.current_phase = .TECHNICAL then q else 0)
    ∧ (record_response a resp q now).1.interview_data.behavioral_score =
        a.interview_data.behavioral_score +
          (if a.interview_data.current_phase = .BEHAVIORAL then q else 0)
    ∧ (record_response a resp q now).2 = "Response recorded and scored." := by
  obtain ⟨hresp, ht, hb, _⟩ := record_response_effect a resp q now
  exact ⟨hresp, ht, hb, rfl⟩

/-- Witness for C3's amended theorem at score 42. -/
theorem record_response_no_validation_witness :
    ((42 : Int) < 1 ∨ 5 < (42 : Int)) ∧
      (record_response techAgent "resp" 42 "t1").1.interview_data.responses =
        techAgent.interview_data.responses ++
          [⟨"resp", 42, "t1", techAgent.interview_data.current_phase⟩] :=
  ⟨by decide, (record_response_no_validation techAgent "resp" 42 "t1" (by decide)).1⟩

/-- C4 counterexample: with no bound interview id, `complete()` still forces
the phase to COMPLETED but persists nothing — the store stays empty, so no
final snapshot is written, contradicting the claim's "for every state". -/
theorem complete_interview_no_persist_counterexample :
    techAgent.interview_data.interview_id = none
    ∧ (complete_interview techAgent [] "imp" "t9").2.1 = []
    ∧ (complete_interview techAgent [] "imp" "t9").1.interview_data.current_phase =
        .COMPLETED
    ∧ (complete_interview techAgent [] "imp" "t9").1.interview_data.overall_impression =
        "imp" := by
  decide

/-- C4 amended: `complete(overallImpression)` sets the phase to COMPLETED and
the impression from any phase; the final snapshot (score totals plus the
serialized logs) is written through the Session Store exactly when a truthy
interview id is bound, updating the matching session rows; with no truthy id
bound the store is left unchanged. -/
theorem complete_interview_spec (a : InterviewAgent) (db : List SessionRow)
    (imp now : String) :
    (complete_interview a db imp now).1.interview_data.current_phase = .COMPLETED
    ∧ (complete_interview a db imp now).1.interview_data.overall_impression = imp
    ∧ (strTruthy a.interview_data.interview_id = false →
        (complete_interview a db imp now).2.1 = db)
    ∧ (∀ id, a.interview_data.interview_id = some id → id ≠ "" →
        (complete_interview a db imp now).2.1 =
          db.map (fun r =>
            if r.interview_id = id then
              { r with end_time := some now
                       technical_score := a.interview_data.technical_score
                       behavioral_score := a.interview_data.behavioral_score
                       overall_impression := some imp
                       interview_data := some ⟨a.interview_data.questions_asked,
                         a.interview_data.responses, a.interview_data.notes⟩
                       status := "completed" }
            else r)) := by
  refine ⟨rfl, rfl, ?_, ?_⟩
  · intro h
    simp [complete_interview, h]
  · intro id hid hne
    simp [complete_interview, hid, strTruthy, hne, complete_interview_session,
      beq_iff_eq]

/-- Witness for C4's amended theorem at a concrete bound agent. -/
theorem complete_interview_spec_witness :
    boundAgent.interview_data.interview_id = some "id-1" ∧
      (complete_interview boundAgent [sampleRow] "imp" "t9").2.1 =
        [sampleRow].map (fun r =>
          if r.interview_id = "id-1" then
            { r with end_time := some "t9"
                     technical_score := boundAgent.interview_data.technical_score
                     behavioral_score := boundAgent.interview_data.behavioral_score
                     overall_impression := some "imp"
                     interview_data := some ⟨boundAgent.interview_data.questions_asked,
                       boundAgent.interview_data.responses,
                       boundAgent.interview_data.notes⟩
                     status := "completed" }
          else r) :=
  ⟨rfl, (complete_interview_spec boundAgent [sampleRow] "imp" "t9").2.2.2 "id-1" rfl
    (by decide)⟩

/-- C6: `completeSession` on an id matching no row returns false rather than
raising, and leaves the table unchanged: no row is created or modified. -/
theorem complete_interview_session_unknown_id (db : List SessionRow) (id : String)
    (tech beh : Int) (imp : String) (log : InterviewLog) (now : String)
    (h : ∀ r ∈ db, r.interview_id ≠ id) :
    (complete_interview_session db id tech beh imp log now).1 = db
    ∧ (complete_interview_session db id tech beh imp log now).2 = false := by
  have hfalse : ∀ r ∈ db, (r.interview_id == id) = false := by
    intro r hr
    exact beq_eq_false_iff_ne.mpr (h r hr)
  constructor
  · show db.map _ = db
    conv_rhs => rw [← List.map_id db]
    apply List.map_congr_left
    intro r hr
    simp [hfalse r hr]
  · show (db.countP _ != 0) = false
    have hz : db.countP (fun r => r.interview_id == id) = 0 :=
      List.countP_eq_zero.mpr (by intro r hr; simp [hfalse r hr])
    simp [hz]

/-- Witness for C6 on a one-row table and a different id. -/
theorem complete_interview_session_unknown_id_witness :
    (∀ r ∈ [sampleRow], r.interview_id ≠ "id-unknown") ∧
      (complete_interview_session [sampleRow] "id-unknown" 1 2 "imp"
        ⟨[], [], []⟩ "t9").1 = [sampleRow] :=
  ⟨by decide, (complete_interview_session_unknown_id [sampleRow] "id-unknown" 1 2
    "imp" ⟨[], [], []⟩ "t9" (by decide)).1⟩

/-- Mapping a function that fixes every element of a list is the identity. -/
theorem map_eq_self_of_fixes {α : Type} (f : α → α) (l : List α)
    (h : ∀ x ∈ l, f x = x) : l.map f = l := by
  conv_rhs => rw [← List.map_id l]
  exact List.map_congr_left h

/-- The row transformer of `cleanup_old_interviews`. -/
def archiveOld (cutoff : String) (r : SessionRow) : SessionRow :=
  if textLt r.start_time.data cutoff.data && r.status != "archived" then
    { r with status := "archived" }
  else r

/-- `cleanup_old_interviews` written through `archiveOld`. -/
theorem cleanup_old_interviews_eq (db : List SessionRow) (cutoff : String) :
    cleanup_old_interviews db cutoff =
      (db.map (archiveOld cutoff),
       db.countP (fun r => textLt r.start_time.data cutoff.data && r.status != "archived")) :=
  rfl

/-- After one pass, no row still satisfies the archive guard. -/
theorem archiveOld_not_again (cutoff : String) (r : SessionRow) :
    (textLt (archiveOld cutoff r).start_time.data cutoff.data &&
      (archiveOld cutoff r).status != "archived") = false := by
  by_cases h : (textLt r.start_time.data cutoff.data && r.status != "archived") = true
  · simp [archiveOld, h]
  · simp only [archiveOld, h, if_neg, Bool.if_false_right]
    simpa using h

/-- C7: `cleanupOld` keeps every row (soft delete only), rewrites exactly the
non-archived rows strictly older than the cutoff to status archived while
leaving every other row untouched, returns the number of rows so changed,
and a second run at the same cutoff changes no row and returns 0. -/
theorem cleanup_old_interviews_spec (db : List SessionRow) (cutoff : String) :
    (cleanup_old_interviews db cutoff).1.length = db.length
    ∧ (cleanup_old_interviews db cutoff).1 =
        db.map (fun r =>
          if textLt r.start_time.data cutoff.data = true ∧ r.status ≠ "archived" then
            { r with status := "archived" }
          else r)
    ∧ (cleanup_old_interviews db cutoff).2 =
        db.countP (fun r => textLt r.start_time.data cutoff.data && r.status != "archived")
    ∧ cleanup_old_interviews (cleanup_old_interviews db cutoff).1 cutoff =
        ((cleanup_old_interviews db cutoff).1, 0) := by
  refine ⟨by simp [cleanup_old_interviews], ?_, rfl, ?_⟩
  · apply List.map_congr_left
    intro r _
    by_cases h : (textLt r.start_time.data cutoff.data && r.status != "archived") = true
    · rw [Bool.and_eq_true, bne_iff_ne] at h
      simp [cleanup_old_interviews, h.1, h.2]
    · rw [Bool.and_eq_true, bne_iff_ne] at h
      push_neg at h
      by_cases h1 : textLt r.start_time.data cutoff.data = true
      · simp [h1, h h1]
      · simp [h1]
  · rw [cleanup_old_interviews_eq, cleanup_old_interviews_eq]
    have hnone : ∀ x ∈ db.map (archiveOld cutoff),
        (textLt x.start_time.data cutoff.data && x.status != "archived") = false := by
      intro x hx
      obtain ⟨y, _, rfl⟩ := List.mem_map.mp hx
      exact archiveOld_not_again cutoff y
    have hmap : (db.map (archiveOld cutoff)).map (archiveOld cutoff) =
        db.map (archiveOld cutoff) := by
      apply map_eq_self_of_fixes
      intro x hx
      simp [archiveOld, hnone x hx]
    have hcount : (db.map (archiveOld cutoff)).countP
        (fun r => textLt r.start_time.data cutoff.data && r.status != "archived") = 0 :=
      List.countP_eq_zero.mpr (by intro x hx; simp [hnone x hx])
    simp [hmap, hcount]

/-- Witness for C7: idempotence on a concrete one-row table whose session is
older than the cutoff. -/
theorem cleanup_old_interviews_spec_witness :
    cleanup_old_interviews
        (cleanup_old_interviews [oldRow] "2026-01-01T00:00:00").1 "2026-01-01T00:00:00" =
      ((cleanup_old_interviews [oldRow] "2026-01-01T00:00:00").1, 0) :=
  (cleanup_old_interviews_spec [oldRow] "2026-01-01T00:00:00").2.2.2

/-- C5 counterexample: with one completed session on file, a recording whose
status is `recording` (not `completed`) still contributes its full file size:
the reported total storage is 1 MB although no completed recording exists, so
the figure is not a sum over completed recordings only. -/
theorem analytics_storage_counts_noncompleted :
    (get_interview_analytics_recording_stats [completedRow] [inProgressRecording]
        none true).total_storage_mb = 1
    ∧ [inProgressRecording].filter (fun r => r.status == "completed") = [] := by
  constructor
  · have hne : (completedSessionsFor [completedRow] none).isEmpty = false := by decide
    rw [get_interview_analytics_recording_stats, hne]
    simp only [Bool.false_eq_true, if_false, if_true]
    show roundTo2 (([inProgressRecording].map recordingStorageMB).sum) = 1
    have h1 : recordingStorageMB inProgressRecording = 1 := by
      rw [recordingStorageMB]
      norm_num [inProgressRecording]
    rw [List.map_cons, List.map_nil, List.sum_cons, List.sum_nil, h1]
    norm_num [roundTo2]
  · decide

/-- C5 amended: when at least one completed session matches and recording
stats are included, `total_storage_mb` is the 2-decimal-rounded sum of
`file_size / 2^20` over ALL recordings — null sizes counting as 0 — and the
figure is invariant under arbitrarily rewriting every recording's status, so
recordings in states `recording`, `failed` or `pending` contribute exactly as
completed ones do. -/
theorem analytics_total_storage_all_recordings (sessions : List SessionRow)
    (recordings : List RecordingRow) (position : Option String)
    (hne : (completedSessionsFor sessions position).isEmpty = false) :
    (get_interview_analytics_recording_stats sessions recordings position
        true).total_storage_mb =
      roundTo2 ((recordings.map recordingStorageMB).sum)
    ∧ ∀ f : RecordingRow → String,
        (get_interview_analytics_recording_stats sessions
            (recordings.map (fun r => { r with status := f r })) position
            true).total_storage_mb =
          (get_interview_analytics_recording_stats sessions recordings position
              true).total_storage_mb := by
  have hbranch : ∀ recs : List RecordingRow,
      (get_interview_analytics_recording_stats sessions recs position
          true).total_storage_mb = roundTo2 ((recs.map recordingStorageMB).sum) := by
    intro recs
    rw [get_interview_analytics_recording_stats, hne]
    simp
  refine ⟨hbranch recordings, ?_⟩
  intro f
  rw [hbranch, hbranch]
  rw [List.map_map]
  congr 1

/-- Witness for C5's amended theorem on a concrete one-row store. -/
theorem analytics_total_storage_all_recordings_witness :
    (completedSessionsFor [completedRow] none).isEmpty = false ∧
      (get_interview_analytics_recording_stats [completedRow] [inProgressRecording]
          none true).total_storage_mb =
        roundTo2 (([inProgressRecording].map recordingStorageMB).sum) :=
  ⟨by decide, (analytics_total_storage_all_recordings [completedRow]
    [inProgressRecording] none (by decide)).1⟩

/-- `list(InterviewPhase).index(p)` agrees with the spec-side phase index. -/
theorem phaseList_indexOf_eq (p : InterviewPhase) :
    phaseList.indexOf p = phaseIndex p := by
  cases p <;> decide

/-- C8: the completion rate is (index of the current phase among the five
phases) divided by the 4 non-terminal phases, times 100; it is 0 in
INTRODUCTION and 100 in COMPLETED. -/
theorem calculate_completion_rate_spec (d : InterviewData) :
    calculate_completion_rate d = (phaseIndex d.current_phase : ℚ) / 4 * 100
    ∧ (d.current_phase = .INTRODUCTION → calculate_completion_rate d = 0)
    ∧ (d.current_phase = .COMPLETED → calculate_completion_rate d = 100) := by
  have hrate : calculate_completion_rate d =
      (phaseIndex d.current_phase : ℚ) / 4 * 100 := by
    rw [calculate_completion_rate, phaseList_indexOf_eq]
    norm_num [phaseList]
  refine ⟨hrate, ?_, ?_⟩
  · intro h
    rw [hrate, h]
    norm_num [phaseIndex]
  · intro h
    rw [hrate, h]
    norm_num [phaseIndex]

/-- Witness for C8 at the terminal phase. -/
theorem calculate_completion_rate_spec_witness :
    calculate_completion_rate completedAgent.interview_data = 100 :=
  (calculate_completion_rate_spec completedAgent.interview_data).2.2 rfl

/-- `Char.ofNat` of a valid codepoint decodes back to it. -/
theorem char_toNat_ofNat_valid (n : Nat) (h : n.isValidChar) :
    (Char.ofNat n).toNat = n := by
  simp [Char.ofNat, dif_pos h, Char.ofNatAux, Char.toNat, UInt32.toNat,
    BitVec.toNat_ofNatLt]

/-- Lower-casing moves an ASCII upper-case letter. -/
theorem pyLowerChar_ne_of_upper (c : Char) (h1 : 'A' ≤ c) (h2 : c ≤ 'Z') :
    pyLowerChar c ≠ c := by
  intro heq
  have hA : 65 ≤ c.toNat := h1
  have hZ : c.toNat ≤ 90 := h2
  have hv : (c.toNat + 32).isValidChar := Or.inl (by omega)
  have hd := char_toNat_ofNat_valid (c.toNat + 32) hv
  rw [pyLowerChar, if_pos ⟨h1, h2⟩] at heq
  rw [heq] at hd
  omega

/-- Mapping a function that moves some member changes the list. -/
theorem map_ne_of_mem_moved {α : Type} (f : α → α) :
    ∀ l : List α, (∃ c ∈ l, f c ≠ c) → l.map f ≠ l := by
  intro l
  induction l with
  | nil => rintro ⟨c, hc, _⟩; cases hc
  | cons a t ih =>
      rintro ⟨c, hc, hmoved⟩ heq
      rw [List.map_cons] at heq
      injection heq with hhead htail
      rcases List.mem_cons.mp hc with rfl | hct
      · exact hmoved hhead
      · exact ih ⟨c, hct, hmoved⟩ htail

/-- Lower-casing a string containing an ASCII upper-case letter changes it. -/
theorem pyLower_ne_of_upper (s : String) (h : ∃ c ∈ s.data, 'A' ≤ c ∧ c ≤ 'Z') :
    pyLower s ≠ s := by
  obtain ⟨c, hc, h1, h2⟩ := h
  intro heq
  have hdata : s.data.map pyLowerChar = s.data := by
    have hcongr := congrArg String.data heq
    simpa [pyLower] using hcongr
  exact map_ne_of_mem_moved pyLowerChar s.data
    ⟨c, hc, pyLowerChar_ne_of_upper c h1 h2⟩ hdata

/-- C9: `record_candidate_info` stores the position lower-cased in the
in-memory session state while the session row it persists in the same call
stores the position verbatim; whenever the position contains an ASCII
upper-case letter the two disagree. -/
theorem record_candidate_info_position_mismatch (a : InterviewAgent)
    (db : List SessionRow) (name position new_id now : String)
    (hupper : ∃ c ∈ position.data, 'A' ≤ c ∧ c ≤ 'Z') :
    (record_candidate_info a db name position new_id now).1.interview_data.position =
      pyLower position
    ∧ (∃ r, (record_candidate_info a db name position new_id now).2 = db ++ [r]
        ∧ r.position = position ∧ r.interview_id = new_id)
    ∧ pyLower position ≠ position := by
  refine ⟨rfl, ⟨_, rfl, rfl, rfl⟩, pyLower_ne_of_upper position hupper⟩

/-- Witness for C9 at the concrete position "Engineer". -/
theorem record_candidate_info_position_mismatch_witness :
    (∃ c ∈ "Engineer".data, 'A' ≤ c ∧ c ≤ 'Z') ∧ pyLower "Engineer" ≠ "Engineer" :=
  ⟨by decide, (record_candidate_info_position_mismatch techAgent [] "Jane"
    "Engineer" "id-9" "t0" (by decide)).2.2⟩

/-- C10: `update_recording_status` called with the optional arguments
omitted (None in the source) rewrites every matched recording row as a whole:
s3_url, file_size and duration_seconds are overwritten with null regardless
of their previous values, end_time is set to null unless the new status is
completed, status and updated_at are set, and unmatched rows are untouched. -/
theorem update_recording_status_overwrites (recordings : List RecordingRow)
    (sessions : List SessionRow) (id status now : String) (r : RecordingRow)
    (hr : r ∈ recordings) (hid : r.recording_id = id) :
    { r with status := status
             end_time := if status = "completed" then some now else none
             s3_url := none
             file_size := none
             duration_seconds := none
             updated_at := now } ∈
      (update_recording_status recordings sessions id status none none none now).1
    ∧ (update_recording_status recordings sessions id status none none none now).1 =
        recordings.map (fun x =>
          if x.recording_id = id then
            { x with status := status
                     end_time := if status = "completed" then some now else none
                     s3_url := none
                     file_size := none
                     duration_seconds := none
                     updated_at := now }
          else x) := by
  have hmapeq :
      (update_recording_status recordings sessions id status none none none now).1 =
        recordings.map (fun x =>
          if x.recording_id = id then
            { x with status := status
                     end_time := if status = "completed" then some now else none
                     s3_url := none
                     file_size := none
                     duration_seconds := none
                     updated_at := now }
          else x) := by
    apply List.map_congr_left
    intro x _
    by_cases hx : x.recording_id = id
    · by_cases hs : status = "completed" <;> simp [hx, hs]
    · simp [hx]
  constructor
  · rw [hmapeq]
    have := List.mem_map_of_mem (fun x =>
      if x.recording_id = id then
        { x with status := status
                 end_time := if status = "completed" then some now else none
                 s3_url := none
                 file_size := none
                 duration_seconds := none
                 updated_at := now }
      else x) hr
    simpa [hid] using this
  · exact hmapeq

/-- Witness for C10: updating a fully populated completed recording to
status failed with the optionals omitted erases its metadata columns. -/
theorem update_recording_status_overwrites_witness :
    completedRecording ∈ [completedRecording] ∧
      { completedRecording with
          status := "failed"
          end_time := if "failed" = "completed" then some "t9" else none
          s3_url := none
          file_size := none
          duration_seconds := none
          updated_at := "t9" } ∈
        (update_recording_status [completedRecording] [] "rec-2" "failed"
            none none none "t9").1 :=
  ⟨by decide, (update_recording_status_overwrites [completedRecording] [] "rec-2"
    "failed" "t9" completedRecording (by decide) (by decide)).1⟩
